import Mathlib

/-!
Shallow embedding of the pull-request enrichment pipeline of `pkg/github/github.go`
(package `github` of the `ghi` command-line tool).

Modelling conventions:
* Go pointer fields (`*string`, `*bool`, `*github.Issue`, …) become `Option`s;
  `nil`-safe getters (`GetDraft`, the `!= nil` chains) become `Option` matches.
* The slices `[]*github.Issue` and `[]*github.PullRequestReview` hold pointers,
  so they are embedded as lists of `Option`s.
* The `map[string]struct{}` used for `UniqueReviewers` becomes a `Finset String`.
* Outbound API calls (`Client.PullRequests.Get`, `Client.PullRequests.ListReviews`)
  are parameters of the enrichment stages: a function from issue number and
  attempt index to `Except ε result`.  Rate-limit detection
  (`err.(*github.RateLimitError)` in `handleRateLimit`) is a predicate
  `isRL : ε → Bool`; the 5-second sleep performed by `handleRateLimit` is
  recorded as a sleep counter threaded through the retry loop.
* Debug logging has no observable effect and is omitted.
* Creation timestamps are embedded as rationals measured in days, so that
  `time.Since(t).Hours()/24` becomes `now - t`.
-/

/-- `github.User`: only the `Login *string` field is consulted by the pipeline. -/
structure User where
  login : Option String
deriving DecidableEq, Repr

/-- `github.Issue`: the fields read by the pipeline and the display helpers. -/
structure Issue where
  number : Option Nat
  user : Option User
  state : Option String
  createdAt : Option ℚ
deriving DecidableEq, Repr

/-- `github.PullRequest`: only `Draft *bool` is consulted. -/
structure PullRequest where
  draft : Option Bool
deriving DecidableEq, Repr

/-- `github.PullRequestReview`: the fields consulted are `User` and `State`. -/
structure Review where
  user : Option User
  state : Option String
deriving DecidableEq, Repr

/-- `PullRequestData` of `pkg/github/github.go`. -/
structure PullRequestData where
  issue : Option Issue
  pullRequest : Option PullRequest
  reviews : List (Option Review)
  authors : List String
  reviewers : List String
  uniqueReviewers : Finset String
  approvalCount : Nat
  reviewerStatus : String
  isDraft : Bool
  draftStatus : String
deriving DecidableEq

/-- `PRCollection` of `pkg/github/github.go` (the external `Client` handle and
`context.Context` are not part of the embedded state; the API calls they serve
are passed to each stage as a function argument). -/
structure PRCollection where
  items : List PullRequestData
  owner : String
  repo : String
  debug : Bool
  draftOption : String
deriving DecidableEq

/-- `NewPRCollection`: empty item list, `DraftOption` left at its zero value. -/
def newPRCollection (owner repo : String) (debug : Bool) : PRCollection :=
  { items := [], owner := owner, repo := repo, debug := debug, draftOption := "" }

/-- `WithDraftOption`. -/
def withDraftOption (option : String) (c : PRCollection) : PRCollection :=
  { c with draftOption := option }

/-- The record built for each issue inside `FetchIssues`: `Issue` set from the
stub, `UniqueReviewers` an empty map, every other field at its zero value. -/
def initPRData (issue : Option Issue) : PullRequestData :=
  { issue := issue, pullRequest := none, reviews := [], authors := [],
    reviewers := [], uniqueReviewers := ∅, approvalCount := 0,
    reviewerStatus := "", isDraft := false, draftStatus := "" }

/-- `FetchIssues`: appends one freshly initialized record per issue stub. -/
def fetchIssues (issues : List (Option Issue)) (c : PRCollection) : PRCollection :=
  { c with items := c.items ++ issues.map initPRData }

/-- Helper `getPRAuthor`: the `Issue != nil && User != nil && Login != nil`
chain, returning `""` when any link is absent. -/
def getPRAuthor (prData : PullRequestData) : String :=
  (((prData.issue.bind Issue.user).bind User.login)).getD ""

/-- Helper `getReviewerLogin`: `review != nil && review.User != nil &&
review.User.Login != nil` chain, returning `""` when any link is absent. -/
def getReviewerLogin (review : Option Review) : String :=
  (((review.bind Review.user).bind User.login)).getD ""

/-- Helper `isApprovedOrCommented`: `false` on a nil review or nil state. -/
def isApprovedOrCommented (review : Option Review) : Bool :=
  match review with
  | none => false
  | some r =>
    match r.state with
    | none => false
    | some s => s == "APPROVED" || s == "COMMENTED"

/-- Helper `isApproved`: `false` on a nil review or nil state. -/
def isApproved (review : Option Review) : Bool :=
  match review with
  | none => false
  | some r =>
    match r.state with
    | none => false
    | some s => s == "APPROVED"

/-- Helper `contains`: linear scan of a string slice. -/
def contains (slice : List String) (item : String) : Bool :=
  match slice with
  | [] => false
  | s :: rest => if s == item then true else contains rest item

/-- `strings.ToLower`, embedded as character-wise lowercasing (the logins and
state strings the pipeline compares are ASCII; Lean's built-in `String.toLower`
is avoided because it does not reduce in the kernel). -/
def toLowerStr (s : String) : String := ⟨s.data.map Char.toLower⟩

/-- `pr.GetDraft()` on the `*github.PullRequest` returned by the API:
`false` when the pull request or its `Draft` field is nil. -/
def getDraft (pr : Option PullRequest) : Bool :=
  match pr with
  | none => false
  | some p => p.draft.getD false

/-- The `for attempts := 0; attempts < 3; attempts++` retry loop shared by
`EnrichWithPullRequests` and `EnrichWithReviews`, together with
`handleRateLimit`.  `remaining` counts the retries still allowed, i.e.
`remaining = 2 - attempts`, so the Go guard `attempts < 2` is `remaining > 0`.
`attempts` is the index of the attempt being issued and `sleeps` counts the
5-second sleeps performed so far by `handleRateLimit`.  On a rate-limit error
with retries remaining the loop sleeps and re-issues the call; any other error,
or a rate-limit error on the final attempt, leaves the loop with that error. -/
def retryLoop {ε α : Type} (isRL : ε → Bool) (op : Nat → Except ε α) :
    Nat → Nat → Nat → Except ε α × Nat
  | 0, attempts, sleeps =>
    match op attempts with
    | .ok a => (.ok a, sleeps)
    | .error e => (.error e, sleeps)
  | r + 1, attempts, sleeps =>
    match op attempts with
    | .ok a => (.ok a, sleeps)
    | .error e =>
      if isRL e then retryLoop isRL op r (attempts + 1) (sleeps + 1)
      else (.error e, sleeps)

/-- A wrapped API call: up to 3 attempts total (1 initial + 2 retries),
starting at attempt index 0 with no sleeps performed. -/
def fetchWithRetry {ε α : Type} (isRL : ε → Bool) (op : Nat → Except ε α) :
    Except ε α × Nat :=
  retryLoop isRL op 2 0 0

/-- The issue number handed to the API calls: `*prData.Issue.Number`
(the search results the pipeline runs on always carry a number; the embedding
totalizes the dereference with 0). -/
def issueNumber (prData : PullRequestData) : Nat :=
  ((prData.issue.bind Issue.number)).getD 0

/-- Per-record body of `EnrichWithPullRequests`: one wrapped
`Client.PullRequests.Get` call; on failure the record is left untouched
(`continue`), on success `PullRequest`, `IsDraft` and `DraftStatus` are set. -/
def enrichPRRecord {ε : Type} (isRL : ε → Bool)
    (getPR : Nat → Nat → Except ε (Option PullRequest))
    (prData : PullRequestData) : PullRequestData :=
  match (fetchWithRetry isRL (fun a => getPR (issueNumber prData) a)).1 with
  | .error _ => prData
  | .ok pr =>
    let d := getDraft pr
    { prData with
      pullRequest := pr
      isDraft := d
      draftStatus := if d then "[X]" else "[ ]" }

/-- `EnrichWithPullRequests`: the per-record enrichment applied in collection
order. -/
def enrichWithPullRequests {ε : Type} (isRL : ε → Bool)
    (getPR : Nat → Nat → Except ε (Option PullRequest))
    (c : PRCollection) : PRCollection :=
  { c with items := c.items.map (enrichPRRecord isRL getPR) }

/-- Body of the `for _, review := range reviews` loop of `EnrichWithReviews`:
reviewer-status check, unique-reviewer accumulation, approval count. -/
def processReview (lowercaseReviewers : List String) (prAuthor : String)
    (prData : PullRequestData) (review : Option Review) : PullRequestData :=
  let reviewer := toLowerStr (getReviewerLogin review)
  let prData1 :=
    if decide (lowercaseReviewers.length > 0) &&
        contains lowercaseReviewers reviewer && isApprovedOrCommented review then
      { prData with reviewerStatus := "[X]" }
    else
      prData
  let prData2 :=
    if !(reviewer == "") && !(reviewer == prAuthor) && isApprovedOrCommented review then
      { prData1 with uniqueReviewers := insert reviewer prData1.uniqueReviewers }
    else
      prData1
  if isApproved review then
    { prData2 with approvalCount := prData2.approvalCount + 1 }
  else
    prData2

/-- Per-record body of `EnrichWithReviews`: `ReviewerStatus` is reset to
`"[ ]"` before the fetch; on fetch failure the record is otherwise left
untouched (`continue`); on success `Reviews` is set and every review is
processed in order. -/
def enrichReviewRecord {ε : Type} (isRL : ε → Bool)
    (listReviews : Nat → Nat → Except ε (List (Option Review)))
    (lowercaseReviewers : List String)
    (prData : PullRequestData) : PullRequestData :=
  let prData0 := { prData with reviewerStatus := "[ ]" }
  match (fetchWithRetry isRL (fun a => listReviews (issueNumber prData0) a)).1 with
  | .error _ => prData0
  | .ok reviews =>
    let prData1 := { prData0 with reviews := reviews }
    let prAuthor := toLowerStr (getPRAuthor prData1)
    reviews.foldl (processReview lowercaseReviewers prAuthor) prData1

/-- `EnrichWithReviews`: the reviewer filter list is lower-cased once up
front, then the per-record enrichment is applied in collection order. -/
def enrichWithReviews {ε : Type} (isRL : ε → Bool)
    (listReviews : Nat → Nat → Except ε (List (Option Review)))
    (reviewers : List String) (c : PRCollection) : PRCollection :=
  let lowercaseReviewers := reviewers.map toLowerStr
  { c with items := c.items.map (enrichReviewRecord isRL listReviews lowercaseReviewers) }

/-- `FilterDrafts`: a no-op unless `DraftOption` is `"hide"`; otherwise
rebuilds the item list keeping exactly the non-draft records, in order. -/
def filterDrafts (c : PRCollection) : PRCollection :=
  if c.draftOption ≠ "hide" then c
  else { c with items := c.items.filter (fun prData => !prData.isDraft) }

/-- The spec's `ReviewerMatched` boolean is carried by the code as the
`ReviewerStatus` string: matched iff the status is `"[X]"`. -/
def reviewerMatched (prData : PullRequestData) : Bool :=
  prData.reviewerStatus == "[X]"

/-- `formatPRNumber` of the display helpers (`now` in days; the Go code
computes `daysOld := time.Since(*timestamp).Hours() / 24`, i.e. `now - t`
in days; the two nil checks on `CreatedAt` and `GetTime()` collapse into one
`Option`).  Red for PRs older than 30 days, gray for drafts, green for PRs at
most one day old, plain otherwise. -/
def formatPRNumber (now : ℚ) (prData : PullRequestData) : String :=
  match prData.issue with
  | none => "N/A"
  | some issue =>
    match issue.number with
    | none => "N/A"
    | some n =>
      let prNumber := toString n
      match issue.createdAt with
      | none => prNumber
      | some t =>
        let daysOld := now - t
        if daysOld > 30 then
          "\x1b[31m" ++ toString n ++ "\x1b[0m"
        else if prData.isDraft then
          "\x1b[90m" ++ toString n ++ "\x1b[0m"
        else if daysOld ≤ 1 then
          "\x1b[32m" ++ toString n ++ "\x1b[0m"
        else
          prNumber

/-! Pure recomputation functions, named after the spec's Draft/Review
Classifier helpers (§4.3).  They are the specification-side counterparts the
derived fields are compared against. -/

/-- Age bands of the spec's `classifyAgeBand`. -/
inductive AgeBand where
  | fresh
  | normal
  | stale
deriving DecidableEq

/-- The spec's `classifyAgeBand(createdAt, now)`: `Fresh` if age ≤ 1 day,
`Stale` if age > 30 days, else `Normal` (the bands partition elapsed time). -/
def classifyAgeBand (createdAt now : ℚ) : AgeBand :=
  if now - createdAt ≤ 1 then .fresh
  else if now - createdAt > 30 then .stale
  else .normal

/-- The spec's `computeApprovalCount(reviews)`: the number of review events
with state exactly `APPROVED`. -/
def computeApprovalCount (reviews : List (Option Review)) : Nat :=
  (reviews.filter isApproved).length

/-- The spec's `computeReviewerMatch(reviews, filterLogins)`: true iff some
review by a filter-listed login (case-insensitively) is approved-or-commented. -/
def computeReviewerMatch (reviews : List (Option Review))
    (filterLogins : List String) : Bool :=
  reviews.any (fun r =>
    contains (filterLogins.map toLowerStr) (toLowerStr (getReviewerLogin r)) &&
    isApprovedOrCommented r)

/-- The spec's `computeUniqueReviewers(reviews, authorLogin)`: the lower-cased
logins of approved-or-commented reviews whose normalized login is nonempty and
differs from the author's lower-cased login — the per-review rule applied by
`EnrichWithReviews`. -/
def computeUniqueReviewers (reviews : List (Option Review))
    (authorLogin : String) : Finset String :=
  ((reviews.filter (fun r =>
      !(toLowerStr (getReviewerLogin r) == "") &&
      !(toLowerStr (getReviewerLogin r) == toLowerStr authorLogin) &&
      isApprovedOrCommented r)).map
    (fun r => toLowerStr (getReviewerLogin r))).toFinset

/-- The unique-reviewer set exactly as the claim words it: the lower-cased
logins of reviewers (login present) with an `APPROVED` or `COMMENTED` review
whose login differs case-insensitively from the PR author's login — with no
requirement that the login be nonempty. -/
def claimedUniqueReviewers (reviews : List (Option Review))
    (authorLogin : String) : Finset String :=
  (reviews.filterMap (fun r =>
    match (r.bind Review.user).bind User.login with
    | none => none
    | some l =>
      if isApprovedOrCommented r && !(toLowerStr l == toLowerStr authorLogin) then
        some (toLowerStr l)
      else
        none)).toFinset

/-! Lemmas about the per-review loop body. -/

theorem processReview_approvalCount (L : List String) (A : String)
    (p : PullRequestData) (r : Option Review) :
    (processReview L A p r).approvalCount =
      if isApproved r then p.approvalCount + 1 else p.approvalCount := by
  simp only [processReview]
  split_ifs <;> rfl

theorem processReview_uniqueReviewers (L : List String) (A : String)
    (p : PullRequestData) (r : Option Review) :
    (processReview L A p r).uniqueReviewers =
      if !(toLowerStr (getReviewerLogin r) == "") &&
          !(toLowerStr (getReviewerLogin r) == A) && isApprovedOrCommented r then
        insert (toLowerStr (getReviewerLogin r)) p.uniqueReviewers
      else
        p.uniqueReviewers := by
  simp only [processReview]
  split_ifs <;> rfl

theorem processReview_reviewerStatus (L : List String) (A : String)
    (p : PullRequestData) (r : Option Review) :
    (processReview L A p r).reviewerStatus =
      if decide (L.length > 0) && contains L (toLowerStr (getReviewerLogin r)) &&
          isApprovedOrCommented r then
        "[X]"
      else
        p.reviewerStatus := by
  simp only [processReview]
  split_ifs <;> rfl

theorem processReview_issue (L : List String) (A : String)
    (p : PullRequestData) (r : Option Review) :
    (processReview L A p r).issue = p.issue := by
  simp only [processReview]
  split_ifs <;> rfl

theorem processReview_reviews (L : List String) (A : String)
    (p : PullRequestData) (r : Option Review) :
    (processReview L A p r).reviews = p.reviews := by
  simp only [processReview]
  split_ifs <;> rfl

theorem processReview_pullRequest (L : List String) (A : String)
    (p : PullRequestData) (r : Option Review) :
    (processReview L A p r).pullRequest = p.pullRequest := by
  simp only [processReview]
  split_ifs <;> rfl

theorem processReview_isDraft (L : List String) (A : String)
    (p : PullRequestData) (r : Option Review) :
    (processReview L A p r).isDraft = p.isDraft := by
  simp only [processReview]
  split_ifs <;> rfl

/-! Lemmas about `contains` and the retry loop. -/

theorem contains_iff_mem (L : List String) (x : String) :
    contains L x = true ↔ x ∈ L := by
  induction L with
  | nil => simp [contains]
  | cons s rest ih =>
    by_cases h : s = x
    · subst h
      simp [contains]
    · simp [contains, h, ih, Ne.symm h]

theorem length_pos_and_contains (L : List String) (x : String) :
    (decide (L.length > 0) && contains L x) = contains L x := by
  cases L <;> simp [contains]

theorem retryLoop_ok {ε α : Type} (isRL : ε → Bool) (op : Nat → Except ε α)
    (rem a s : Nat) (v : α) (h : op a = .ok v) :
    retryLoop isRL op rem a s = (.ok v, s) := by
  cases rem <;> · unfold retryLoop; rw [h]

theorem retryLoop_error_rl {ε α : Type} (isRL : ε → Bool) (op : Nat → Except ε α)
    (r a s : Nat) (e : ε) (h : op a = .error e) (hrl : isRL e = true) :
    retryLoop isRL op (r + 1) a s = retryLoop isRL op r (a + 1) (s + 1) := by
  conv_lhs => unfold retryLoop
  rw [h]
  simp [hrl]

theorem retryLoop_error_notrl {ε α : Type} (isRL : ε → Bool) (op : Nat → Except ε α)
    (r a s : Nat) (e : ε) (h : op a = .error e) (hrl : isRL e = false) :
    retryLoop isRL op (r + 1) a s = (.error e, s) := by
  unfold retryLoop
  rw [h]
  simp [hrl]

theorem retryLoop_error_exhausted {ε α : Type} (isRL : ε → Bool)
    (op : Nat → Except ε α) (a s : Nat) (e : ε) (h : op a = .error e) :
    retryLoop isRL op 0 a s = (.error e, s) := by
  unfold retryLoop
  rw [h]

theorem retryLoop_congr {ε α : Type} (isRL : ε → Bool) (op op' : Nat → Except ε α)
    (rem : Nat) :
    ∀ a s, (∀ i, a ≤ i → i ≤ a + rem → op i = op' i) →
      retryLoop isRL op rem a s = retryLoop isRL op' rem a s := by
  induction rem with
  | zero =>
    intro a s h
    unfold retryLoop
    rw [h a le_rfl (by omega)]
  | succ r ih =>
    intro a s h
    unfold retryLoop
    rw [h a le_rfl (by omega)]
    cases op' a with
    | ok v => rfl
    | error e =>
      cases hrl : isRL e with
      | true =>
        simp only [hrl, if_true]
        exact ih (a + 1) (s + 1) (fun i h1 h2 => h i (by omega) (by omega))
      | false => simp [hrl]

/-! Lemmas about the review fold of `EnrichWithReviews`. -/

theorem foldl_processReview_approvalCount (L : List String) (A : String)
    (rs : List (Option Review)) :
    ∀ p : PullRequestData,
      (rs.foldl (processReview L A) p).approvalCount =
        p.approvalCount + (rs.filter isApproved).length := by
  induction rs with
  | nil => intro p; simp
  | cons r rest ih =>
    intro p
    simp only [List.foldl_cons, List.filter_cons]
    rw [ih, processReview_approvalCount]
    by_cases h : isApproved r
    · simp [h]
      omega
    · simp [h]

theorem foldl_processReview_uniqueReviewers_mem (L : List String) (A : String)
    (x : String) (rs : List (Option Review)) :
    ∀ p : PullRequestData,
      (x ∈ (rs.foldl (processReview L A) p).uniqueReviewers ↔
        x ∈ p.uniqueReviewers ∨ ∃ r ∈ rs,
          ¬toLowerStr (getReviewerLogin r) = "" ∧
          ¬toLowerStr (getReviewerLogin r) = A ∧
          isApprovedOrCommented r = true ∧
          x = toLowerStr (getReviewerLogin r)) := by
  induction rs with
  | nil => intro p; simp
  | cons r rest ih =>
    intro p
    simp only [List.foldl_cons]
    rw [ih, processReview_uniqueReviewers]
    by_cases h1 : toLowerStr (getReviewerLogin r) = ""
    · simp [h1]
      try tauto
    · by_cases h2 : toLowerStr (getReviewerLogin r) = A
      · simp [h1, h2]
        try tauto
      · by_cases h3 : isApprovedOrCommented r
        · simp [h1, h2, h3, Finset.mem_insert]
          try tauto
        · simp [h1, h2, h3]
          try tauto

theorem foldl_processReview_reviewerStatus (L : List String) (A : String)
    (rs : List (Option Review)) :
    ∀ p : PullRequestData,
      (rs.foldl (processReview L A) p).reviewerStatus =
        if rs.any (fun r =>
            contains L (toLowerStr (getReviewerLogin r)) && isApprovedOrCommented r) then
          "[X]"
        else
          p.reviewerStatus := by
  induction rs with
  | nil => intro p; simp
  | cons r rest ih =>
    intro p
    simp only [List.foldl_cons, List.any_cons]
    rw [ih, processReview_reviewerStatus]
    by_cases h1 : contains L (toLowerStr (getReviewerLogin r))
    · by_cases h2 : isApprovedOrCommented r
      · have : (decide (L.length > 0)) = true := by
          cases L with
          | nil => simp [contains] at h1
          | cons a as => simp
        simp [h1, h2, this]
      · simp [h1, h2]
    · simp [h1]

theorem foldl_processReview_issue (L : List String) (A : String)
    (rs : List (Option Review)) :
    ∀ p : PullRequestData, (rs.foldl (processReview L A) p).issue = p.issue := by
  induction rs with
  | nil => intro p; simp
  | cons r rest ih =>
    intro p
    simp only [List.foldl_cons]
    rw [ih, processReview_issue]

theorem foldl_processReview_reviews (L : List String) (A : String)
    (rs : List (Option Review)) :
    ∀ p : PullRequestData, (rs.foldl (processReview L A) p).reviews = p.reviews := by
  induction rs with
  | nil => intro p; simp
  | cons r rest ih =>
    intro p
    simp only [List.foldl_cons]
    rw [ih, processReview_reviews]

theorem foldl_processReview_pullRequest (L : List String) (A : String)
    (rs : List (Option Review)) :
    ∀ p : PullRequestData,
      (rs.foldl (processReview L A) p).pullRequest = p.pullRequest := by
  induction rs with
  | nil => intro p; simp
  | cons r rest ih =>
    intro p
    simp only [List.foldl_cons]
    rw [ih, processReview_pullRequest]

theorem foldl_processReview_isDraft (L : List String) (A : String)
    (rs : List (Option Review)) :
    ∀ p : PullRequestData, (rs.foldl (processReview L A) p).isDraft = p.isDraft := by
  induction rs with
  | nil => intro p; simp
  | cons r rest ih =>
    intro p
    simp only [List.foldl_cons]
    rw [ih, processReview_isDraft]

/-! Characterizations of the per-record enrichment bodies. -/

theorem issueNumber_setStatus (p : PullRequestData) (st : String) :
    issueNumber { p with reviewerStatus := st } = issueNumber p := rfl

theorem getPRAuthor_setStatusReviews (p : PullRequestData) (st : String)
    (rs : List (Option Review)) :
    getPRAuthor { p with reviewerStatus := st, reviews := rs } = getPRAuthor p := rfl

theorem enrichPRRecord_failure {ε : Type} (isRL : ε → Bool)
    (getPR : Nat → Nat → Except ε (Option PullRequest)) (prData : PullRequestData)
    (e : ε)
    (hfetch : (fetchWithRetry isRL (fun a => getPR (issueNumber prData) a)).1 =
      .error e) :
    enrichPRRecord isRL getPR prData = prData := by
  unfold enrichPRRecord
  rw [hfetch]

theorem enrichPRRecord_success {ε : Type} (isRL : ε → Bool)
    (getPR : Nat → Nat → Except ε (Option PullRequest)) (prData : PullRequestData)
    (pr : Option PullRequest)
    (hfetch : (fetchWithRetry isRL (fun a => getPR (issueNumber prData) a)).1 =
      .ok pr) :
    enrichPRRecord isRL getPR prData =
      { prData with
        pullRequest := pr
        isDraft := getDraft pr
        draftStatus := if getDraft pr then "[X]" else "[ ]" } := by
  unfold enrichPRRecord
  rw [hfetch]

theorem enrichReviewRecord_failure {ε : Type} (isRL : ε → Bool)
    (listReviews : Nat → Nat → Except ε (List (Option Review)))
    (L : List String) (prData : PullRequestData) (e : ε)
    (hfetch : (fetchWithRetry isRL (fun a => listReviews (issueNumber prData) a)).1 =
      .error e) :
    enrichReviewRecord isRL listReviews L prData =
      { prData with reviewerStatus := "[ ]" } := by
  unfold enrichReviewRecord
  simp only [issueNumber] at hfetch ⊢
  rw [hfetch]

theorem enrichReviewRecord_success {ε : Type} (isRL : ε → Bool)
    (listReviews : Nat → Nat → Except ε (List (Option Review)))
    (L : List String) (prData : PullRequestData) (rs : List (Option Review))
    (hfetch : (fetchWithRetry isRL (fun a => listReviews (issueNumber prData) a)).1 =
      .ok rs) :
    enrichReviewRecord isRL listReviews L prData =
      rs.foldl (processReview L (toLowerStr (getPRAuthor prData)))
        { prData with reviewerStatus := "[ ]", reviews := rs } := by
  unfold enrichReviewRecord
  simp only [issueNumber] at hfetch ⊢
  rw [hfetch]
  rfl

/-! State-string characterizations of the review classifiers, and
field-level consequences of a successful or failed review fetch. -/

theorem isApproved_iff (r : Option Review) :
    isApproved r = true ↔ r.bind Review.state = some "APPROVED" := by
  match r with
  | none => simp [isApproved]
  | some rr =>
    match h : rr.state with
    | none => simp [isApproved, h]
    | some s => simp [isApproved, h]

theorem isApprovedOrCommented_iff (r : Option Review) :
    isApprovedOrCommented r = true ↔
      (r.bind Review.state = some "APPROVED" ∨
        r.bind Review.state = some "COMMENTED") := by
  match r with
  | none => simp [isApprovedOrCommented]
  | some rr =>
    match h : rr.state with
    | none => simp [isApprovedOrCommented, h]
    | some s => simp [isApprovedOrCommented, h]

theorem enrichReviewRecord_issue {ε : Type} (isRL : ε → Bool)
    (listReviews : Nat → Nat → Except ε (List (Option Review)))
    (L : List String) (p : PullRequestData) :
    (enrichReviewRecord isRL listReviews L p).issue = p.issue := by
  cases h : (fetchWithRetry isRL fun a => listReviews (issueNumber p) a).1 with
  | error e => rw [enrichReviewRecord_failure isRL listReviews L p e h]
  | ok rs =>
    rw [enrichReviewRecord_success isRL listReviews L p rs h,
      foldl_processReview_issue]

theorem enrichPRRecord_issue {ε : Type} (isRL : ε → Bool)
    (getPR : Nat → Nat → Except ε (Option PullRequest)) (p : PullRequestData) :
    (enrichPRRecord isRL getPR p).issue = p.issue := by
  unfold enrichPRRecord
  cases (fetchWithRetry isRL fun a => getPR (issueNumber p) a).1 <;> rfl

theorem enrichPRRecord_approvalCount {ε : Type} (isRL : ε → Bool)
    (getPR : Nat → Nat → Except ε (Option PullRequest)) (p : PullRequestData) :
    (enrichPRRecord isRL getPR p).approvalCount = p.approvalCount := by
  unfold enrichPRRecord
  cases (fetchWithRetry isRL fun a => getPR (issueNumber p) a).1 <;> rfl

theorem enrichPRRecord_uniqueReviewers {ε : Type} (isRL : ε → Bool)
    (getPR : Nat → Nat → Except ε (Option PullRequest)) (p : PullRequestData) :
    (enrichPRRecord isRL getPR p).uniqueReviewers = p.uniqueReviewers := by
  unfold enrichPRRecord
  cases (fetchWithRetry isRL fun a => getPR (issueNumber p) a).1 <;> rfl

theorem enrichPRRecord_reviews {ε : Type} (isRL : ε → Bool)
    (getPR : Nat → Nat → Except ε (Option PullRequest)) (p : PullRequestData) :
    (enrichPRRecord isRL getPR p).reviews = p.reviews := by
  unfold enrichPRRecord
  cases (fetchWithRetry isRL fun a => getPR (issueNumber p) a).1 <;> rfl

theorem enrichReviewRecord_success_reviews {ε : Type} (isRL : ε → Bool)
    (listReviews : Nat → Nat → Except ε (List (Option Review)))
    (L : List String) (p : PullRequestData) (rs : List (Option Review))
    (hfetch : (fetchWithRetry isRL (fun a => listReviews (issueNumber p) a)).1 =
      .ok rs) :
    (enrichReviewRecord isRL listReviews L p).reviews = rs := by
  rw [enrichReviewRecord_success isRL listReviews L p rs hfetch,
    foldl_processReview_reviews]

theorem enrichReviewRecord_success_approvalCount {ε : Type} (isRL : ε → Bool)
    (listReviews : Nat → Nat → Except ε (List (Option Review)))
    (L : List String) (p : PullRequestData) (rs : List (Option Review))
    (hfetch : (fetchWithRetry isRL (fun a => listReviews (issueNumber p) a)).1 =
      .ok rs) :
    (enrichReviewRecord isRL listReviews L p).approvalCount =
      p.approvalCount + computeApprovalCount rs := by
  rw [enrichReviewRecord_success isRL listReviews L p rs hfetch,
    foldl_processReview_approvalCount]
  rfl

theorem enrichReviewRecord_success_uniqueReviewers_mem {ε : Type} (isRL : ε → Bool)
    (listReviews : Nat → Nat → Except ε (List (Option Review)))
    (L : List String) (p : PullRequestData) (rs : List (Option Review)) (x : String)
    (hfetch : (fetchWithRetry isRL (fun a => listReviews (issueNumber p) a)).1 =
      .ok rs) :
    (x ∈ (enrichReviewRecord isRL listReviews L p).uniqueReviewers ↔
      x ∈ p.uniqueReviewers ∨ ∃ r ∈ rs,
        ¬toLowerStr (getReviewerLogin r) = "" ∧
        ¬toLowerStr (getReviewerLogin r) = toLowerStr (getPRAuthor p) ∧
        isApprovedOrCommented r = true ∧
        x = toLowerStr (getReviewerLogin r)) := by
  rw [enrichReviewRecord_success isRL listReviews L p rs hfetch,
    foldl_processReview_uniqueReviewers_mem]

theorem enrichReviewRecord_success_reviewerStatus {ε : Type} (isRL : ε → Bool)
    (listReviews : Nat → Nat → Except ε (List (Option Review)))
    (L : List String) (p : PullRequestData) (rs : List (Option Review))
    (hfetch : (fetchWithRetry isRL (fun a => listReviews (issueNumber p) a)).1 =
      .ok rs) :
    (enrichReviewRecord isRL listReviews L p).reviewerStatus =
      if rs.any (fun r =>
          contains L (toLowerStr (getReviewerLogin r)) && isApprovedOrCommented r) then
        "[X]"
      else
        "[ ]" := by
  rw [enrichReviewRecord_success isRL listReviews L p rs hfetch,
    foldl_processReview_reviewerStatus]

theorem mem_computeUniqueReviewers (rs : List (Option Review)) (author : String)
    (x : String) :
    x ∈ computeUniqueReviewers rs author ↔
      ∃ r ∈ rs,
        ¬toLowerStr (getReviewerLogin r) = "" ∧
        ¬toLowerStr (getReviewerLogin r) = toLowerStr author ∧
        isApprovedOrCommented r = true ∧
        x = toLowerStr (getReviewerLogin r) := by
  simp only [computeUniqueReviewers, List.mem_toFinset, List.mem_map,
    List.mem_filter, Bool.and_eq_true, Bool.not_eq_true', beq_eq_false_iff_ne,
    ne_eq]
  aesop

/-! Consequences of absent optional fields. -/

theorem isApproved_state_none (r : Option Review) (h : r.bind Review.state = none) :
    isApproved r = false := by
  match r with
  | none => rfl
  | some rr =>
    simp only [Option.some_bind] at h
    simp [isApproved, h]

theorem isApprovedOrCommented_state_none (r : Option Review)
    (h : r.bind Review.state = none) : isApprovedOrCommented r = false := by
  match r with
  | none => rfl
  | some rr =>
    simp only [Option.some_bind] at h
    simp [isApprovedOrCommented, h]

theorem getReviewerLogin_login_none (r : Option Review)
    (h : (r.bind Review.user).bind User.login = none) : getReviewerLogin r = "" := by
  simp [getReviewerLogin, h]

theorem toLower_empty : toLowerStr "" = "" := rfl

/-! Sample data used by closed witness and counterexample statements. -/

/-- An issue stub authored by `alice`. -/
def aliceIssue : Issue :=
  { number := some 1, user := some { login := some "alice" },
    state := some "open", createdAt := some 0 }

/-- A review by `bob` with state `APPROVED`. -/
def bobApproved : Review :=
  { user := some { login := some "bob" }, state := some "APPROVED" }

/-- A review by `carol` with state `CHANGES_REQUESTED`. -/
def carolChanges : Review :=
  { user := some { login := some "carol" }, state := some "CHANGES_REQUESTED" }

/-- A review whose user login is present but equal to the empty string. -/
def emptyLoginApproved : Review :=
  { user := some { login := some "" }, state := some "APPROVED" }

/-- A review with no state field. -/
def noStateReview : Review :=
  { user := some { login := some "dave" }, state := none }

/-- A review with no user (hence no login). -/
def noLoginReview : Review :=
  { user := none, state := some "APPROVED" }

/-- A review-list fetcher that always succeeds with a fixed review list. -/
def okReviewsFetcher (rs : List (Option Review)) :
    Nat → Nat → Except Unit (List (Option Review)) :=
  fun _ _ => .ok rs

/-- A PR-detail fetcher that always fails with a non-rate-limit error. -/
def failPRFetcher : Nat → Nat → Except Unit (Option PullRequest) :=
  fun _ _ => .error ()

/-- A review-list fetcher that always fails with a non-rate-limit error. -/
def failReviewsFetcher : Nat → Nat → Except Unit (List (Option Review)) :=
  fun _ _ => .error ()

/-- A rate-limit discriminator under which no error is a rate limit
(`Unit` errors model `error != *github.RateLimitError`). -/
def noRL : Unit → Bool := fun _ => false

/-- C2: every wrapped API call in the enrichment stages retries on a
rate-limit error after a 5-second sleep, with at most 3 attempts total
(its result is determined by attempts 0..2); when all 3 attempts fail with
rate-limit errors, exactly 2 sleeps occur and the last error is surfaced
unchanged; a non-rate-limit failure is surfaced immediately after its own
attempt with no further attempt and no further sleep. -/
theorem c2_rate_limit_retry_policy :
    (∀ (ε α : Type) (isRL : ε → Bool) (op : Nat → Except ε α) (e0 e1 e2 : ε),
        op 0 = .error e0 → isRL e0 = true →
        op 1 = .error e1 → isRL e1 = true →
        op 2 = .error e2 → isRL e2 = true →
        fetchWithRetry isRL op = (.error e2, 2)) ∧
    (∀ (ε α : Type) (isRL : ε → Bool) (op : Nat → Except ε α) (e : ε),
        op 0 = .error e → isRL e = false →
        fetchWithRetry isRL op = (.error e, 0)) ∧
    (∀ (ε α : Type) (isRL : ε → Bool) (op : Nat → Except ε α) (e0 e1 : ε),
        op 0 = .error e0 → isRL e0 = true →
        op 1 = .error e1 → isRL e1 = false →
        fetchWithRetry isRL op = (.error e1, 1)) ∧
    (∀ (ε α : Type) (isRL : ε → Bool) (op : Nat → Except ε α) (e0 : ε) (v : α),
        op 0 = .error e0 → isRL e0 = true → op 1 = .ok v →
        fetchWithRetry isRL op = (.ok v, 1)) ∧
    (∀ (ε α : Type) (isRL : ε → Bool) (op op' : Nat → Except ε α),
        (∀ i, i < 3 → op i = op' i) →
        fetchWithRetry isRL op = fetchWithRetry isRL op') := by
  refine ⟨?_, ?_, ?_, ?_, ?_⟩
  · intro ε α isRL op e0 e1 e2 h0 r0 h1 r1 h2 r2
    unfold fetchWithRetry
    rw [retryLoop_error_rl isRL op 1 0 0 e0 h0 r0,
      retryLoop_error_rl isRL op 0 1 1 e1 h1 r1,
      retryLoop_error_exhausted isRL op 2 2 e2 h2]
  · intro ε α isRL op e h0 hr
    unfold fetchWithRetry
    rw [retryLoop_error_notrl isRL op 1 0 0 e h0 hr]
  · intro ε α isRL op e0 e1 h0 r0 h1 r1
    unfold fetchWithRetry
    rw [retryLoop_error_rl isRL op 1 0 0 e0 h0 r0,
      retryLoop_error_notrl isRL op 0 1 1 e1 h1 r1]
  · intro ε α isRL op e0 v h0 r0 h1
    unfold fetchWithRetry
    rw [retryLoop_error_rl isRL op 1 0 0 e0 h0 r0,
      retryLoop_ok isRL op 1 1 1 v h1]
  · intro ε α isRL op op' h
    unfold fetchWithRetry
    exact retryLoop_congr isRL op op' 2 0 0 (fun i h1 h2 => h i (by omega))

/-- Witness for C2 at a fetcher that always rate-limits and one that fails
with a non-rate-limit error on the first attempt. -/
theorem c2_rate_limit_retry_policy_witness :
    fetchWithRetry (fun b : Bool => b) (fun _ => (.error true : Except Bool Nat)) =
      (.error true, 2) ∧
    fetchWithRetry (fun b : Bool => b) (fun _ => (.error false : Except Bool Nat)) =
      (.error false, 0) :=
  ⟨c2_rate_limit_retry_policy.1 Bool Nat (fun b => b) (fun _ => .error true)
      true true true rfl rfl rfl rfl rfl rfl,
    c2_rate_limit_retry_policy.2.1 Bool Nat (fun b => b) (fun _ => .error false)
      false rfl rfl⟩

/-- C10: the review classifiers are total over absent optional fields: an
absent state means neither approved nor commented (so the review contributes
nothing to any derived field), and an absent user login normalizes to the
empty string and is never added to the unique-reviewer set. -/
theorem c10_absent_fields_safe :
    (∀ r : Option Review, r.bind Review.state = none →
        isApproved r = false ∧ isApprovedOrCommented r = false) ∧
    (∀ r : Option Review, (r.bind Review.user).bind User.login = none →
        getReviewerLogin r = "") ∧
    (∀ (L : List String) (A : String) (p : PullRequestData) (r : Option Review),
        r.bind Review.state = none → processReview L A p r = p) ∧
    (∀ (L : List String) (A : String) (p : PullRequestData) (r : Option Review),
        (r.bind Review.user).bind User.login = none →
          (processReview L A p r).uniqueReviewers = p.uniqueReviewers) := by
  refine ⟨?_, ?_, ?_, ?_⟩
  · intro r h
    exact ⟨isApproved_state_none r h, isApprovedOrCommented_state_none r h⟩
  · intro r h
    exact getReviewerLogin_login_none r h
  · intro L A p r h
    simp [processReview, isApproved_state_none r h,
      isApprovedOrCommented_state_none r h]
  · intro L A p r h
    rw [processReview_uniqueReviewers, getReviewerLogin_login_none r h]
    simp [toLower_empty]

/-- Witness for C10 at a review with no state and a review with no user. -/
theorem c10_absent_fields_safe_witness :
    isApproved (some noStateReview) = false ∧
    getReviewerLogin (some noLoginReview) = "" ∧
    processReview ["alice"] "alice" (initPRData none) (some noStateReview) =
      initPRData none ∧
    (processReview ["alice"] "alice" (initPRData none)
        (some noLoginReview)).uniqueReviewers = (initPRData none).uniqueReviewers :=
  ⟨(c10_absent_fields_safe.1 (some noStateReview) rfl).1,
    c10_absent_fields_safe.2.1 (some noLoginReview) rfl,
    c10_absent_fields_safe.2.2.1 ["alice"] "alice" (initPRData none)
      (some noStateReview) rfl,
    c10_absent_fields_safe.2.2.2 ["alice"] "alice" (initPRData none)
      (some noLoginReview) rfl⟩

/-! More sample data for closed witness statements. -/

/-- A fresh (non-draft) record for `aliceIssue`. -/
def plainRecord : PullRequestData := initPRData (some aliceIssue)

/-- The same record marked as a draft. -/
def draftRecord : PullRequestData := { plainRecord with isDraft := true }

/-- A two-record collection in draft mode `"show"`. -/
def showCollection : PRCollection :=
  { items := [draftRecord, plainRecord], owner := "o", repo := "r",
    debug := false, draftOption := "show" }

/-- The same collection in draft mode `"hide"`. -/
def hideCollection : PRCollection := { showCollection with draftOption := "hide" }

theorem filter_self_idem {α : Type} (q : α → Bool) (l : List α) :
    (l.filter q).filter q = l.filter q := by
  induction l with
  | nil => rfl
  | cons a as ih =>
    by_cases h : q a <;> simp [List.filter_cons, h, ih]

/-- C3: `FilterDrafts` is a no-op when the draft mode is `"show"`; in mode
`"hide"` it keeps exactly the non-draft records in their original relative
order; a record whose detail fetch failed still has `IsDraft = false` and
always survives the filter; and the filter is idempotent. -/
theorem c3_filter_drafts :
    (∀ c : PRCollection, c.draftOption = "show" → filterDrafts c = c) ∧
    (∀ c : PRCollection, c.draftOption = "hide" →
        (filterDrafts c).items = c.items.filter (fun p => !p.isDraft)) ∧
    (∀ (ε : Type) (isRL : ε → Bool)
        (getPR : Nat → Nat → Except ε (Option PullRequest))
        (issue : Option Issue) (e : ε),
        (fetchWithRetry isRL
            (fun a => getPR (issueNumber (initPRData issue)) a)).1 = .error e →
        (enrichPRRecord isRL getPR (initPRData issue)).isDraft = false) ∧
    (∀ (c : PRCollection) (p : PullRequestData),
        p ∈ c.items → p.isDraft = false → p ∈ (filterDrafts c).items) ∧
    (∀ c : PRCollection, filterDrafts (filterDrafts c) = filterDrafts c) := by
  refine ⟨?_, ?_, ?_, ?_, ?_⟩
  · intro c h
    simp [filterDrafts, h]
  · intro c h
    simp [filterDrafts, h]
  · intro ε isRL getPR issue e hfetch
    rw [enrichPRRecord_failure isRL getPR (initPRData issue) e hfetch]
    rfl
  · intro c p hp hdraft
    by_cases h : c.draftOption = "hide"
    · simp [filterDrafts, h, List.mem_filter, hp, hdraft]
    · simp [filterDrafts, h, hp]
  · intro c
    by_cases h : c.draftOption = "hide"
    · simp [filterDrafts, h, filter_self_idem]
    · simp [filterDrafts, h]

/-- Witness for C3 on concrete two-record collections. -/
theorem c3_filter_drafts_witness :
    filterDrafts showCollection = showCollection ∧
    (filterDrafts hideCollection).items =
      hideCollection.items.filter (fun p => !p.isDraft) ∧
    (enrichPRRecord noRL failPRFetcher (initPRData (some aliceIssue))).isDraft =
      false ∧
    plainRecord ∈ (filterDrafts hideCollection).items ∧
    filterDrafts (filterDrafts hideCollection) = filterDrafts hideCollection :=
  ⟨c3_filter_drafts.1 showCollection rfl,
    c3_filter_drafts.2.1 hideCollection rfl,
    c3_filter_drafts.2.2.1 Unit noRL failPRFetcher (some aliceIssue) () rfl,
    c3_filter_drafts.2.2.2.1 hideCollection plainRecord (by decide) rfl,
    c3_filter_drafts.2.2.2.2 hideCollection⟩

/-- C4: the enrichment stages never remove a record or move it (each stage
maps the item list position-wise); a record whose PR-detail fetch ultimately
fails is left completely untouched (so a fresh record keeps no detail and
`IsDraft = false`); a record whose review fetch ultimately fails keeps
`ReviewerMatched = false`, `ApprovalCount = 0` and empty `UniqueReviewers`;
and the detail stage never touches the review-derived fields. -/
theorem c4_per_record_skip :
    (∀ (ε : Type) (isRL : ε → Bool)
        (getPR : Nat → Nat → Except ε (Option PullRequest)) (c : PRCollection),
        (enrichWithPullRequests isRL getPR c).items.length = c.items.length) ∧
    (∀ (ε : Type) (isRL : ε → Bool)
        (getPR : Nat → Nat → Except ε (Option PullRequest)) (c : PRCollection)
        (i : Nat),
        (enrichWithPullRequests isRL getPR c).items[i]? =
          c.items[i]?.map (enrichPRRecord isRL getPR)) ∧
    (∀ (ε : Type) (isRL : ε → Bool)
        (listReviews : Nat → Nat → Except ε (List (Option Review)))
        (reviewers : List String) (c : PRCollection),
        (enrichWithReviews isRL listReviews reviewers c).items.length =
          c.items.length) ∧
    (∀ (ε : Type) (isRL : ε → Bool)
        (listReviews : Nat → Nat → Except ε (List (Option Review)))
        (reviewers : List String) (c : PRCollection) (i : Nat),
        (enrichWithReviews isRL listReviews reviewers c).items[i]? =
          c.items[i]?.map
            (enrichReviewRecord isRL listReviews (reviewers.map toLowerStr))) ∧
    (∀ (ε : Type) (isRL : ε → Bool)
        (getPR : Nat → Nat → Except ε (Option PullRequest))
        (p : PullRequestData) (e : ε),
        (fetchWithRetry isRL (fun a => getPR (issueNumber p) a)).1 = .error e →
        enrichPRRecord isRL getPR p = p) ∧
    (∀ issue : Option Issue,
        (initPRData issue).pullRequest = none ∧ (initPRData issue).isDraft = false) ∧
    (∀ (ε : Type) (isRL : ε → Bool)
        (listReviews : Nat → Nat → Except ε (List (Option Review)))
        (L : List String) (p : PullRequestData) (e : ε),
        (fetchWithRetry isRL (fun a => listReviews (issueNumber p) a)).1 =
          .error e →
        p.approvalCount = 0 → p.uniqueReviewers = ∅ →
        reviewerMatched (enrichReviewRecord isRL listReviews L p) = false ∧
        (enrichReviewRecord isRL listReviews L p).approvalCount = 0 ∧
        (enrichReviewRecord isRL listReviews L p).uniqueReviewers = ∅) ∧
    (∀ (ε : Type) (isRL : ε → Bool)
        (getPR : Nat → Nat → Except ε (Option PullRequest)) (issue : Option Issue),
        (enrichPRRecord isRL getPR (initPRData issue)).approvalCount = 0 ∧
        (enrichPRRecord isRL getPR (initPRData issue)).uniqueReviewers = ∅ ∧
        (enrichPRRecord isRL getPR (initPRData issue)).reviews = []) := by
  refine ⟨?_, ?_, ?_, ?_, ?_, ?_, ?_, ?_⟩
  · intro ε isRL getPR c
    simp [enrichWithPullRequests]
  · intro ε isRL getPR c i
    simp [enrichWithPullRequests, List.getElem?_map]
  · intro ε isRL listReviews reviewers c
    simp [enrichWithReviews]
  · intro ε isRL listReviews reviewers c i
    simp [enrichWithReviews, List.getElem?_map]
  · intro ε isRL getPR p e hfetch
    exact enrichPRRecord_failure isRL getPR p e hfetch
  · intro issue
    exact ⟨rfl, rfl⟩
  · intro ε isRL listReviews L p e hfetch hcount huniq
    rw [enrichReviewRecord_failure isRL listReviews L p e hfetch]
    refine ⟨by rfl, hcount, huniq⟩
  · intro ε isRL getPR issue
    exact ⟨enrichPRRecord_approvalCount isRL getPR (initPRData issue),
      enrichPRRecord_uniqueReviewers isRL getPR (initPRData issue),
      enrichPRRecord_reviews isRL getPR (initPRData issue)⟩

/-- Witness for C4 on a one-record collection with failing fetchers. -/
theorem c4_per_record_skip_witness :
    (enrichWithPullRequests noRL failPRFetcher
        (fetchIssues [some aliceIssue] (newPRCollection "o" "r" false))).items.length =
      (fetchIssues [some aliceIssue] (newPRCollection "o" "r" false)).items.length ∧
    enrichPRRecord noRL failPRFetcher plainRecord = plainRecord ∧
    reviewerMatched (enrichReviewRecord noRL failReviewsFetcher [] plainRecord) =
      false ∧
    (enrichReviewRecord noRL failReviewsFetcher [] plainRecord).approvalCount = 0 ∧
    (enrichReviewRecord noRL failReviewsFetcher [] plainRecord).uniqueReviewers =
      ∅ :=
  ⟨c4_per_record_skip.1 Unit noRL failPRFetcher
      (fetchIssues [some aliceIssue] (newPRCollection "o" "r" false)),
    c4_per_record_skip.2.2.2.2.1 Unit noRL failPRFetcher plainRecord () rfl,
    (c4_per_record_skip.2.2.2.2.2.2.1 Unit noRL failReviewsFetcher [] plainRecord ()
        rfl rfl rfl).1,
    (c4_per_record_skip.2.2.2.2.2.2.1 Unit noRL failReviewsFetcher [] plainRecord ()
        rfl rfl rfl).2.1,
    (c4_per_record_skip.2.2.2.2.2.2.1 Unit noRL failReviewsFetcher [] plainRecord ()
        rfl rfl rfl).2.2⟩

/-! Helper lemmas for the reviewer-match and approval-count claims. -/

theorem status_beq (b : Bool) : ((if b then "[X]" else "[ ]") == "[X]") = b := by
  cases b <;> decide

theorem any_match_iff (reviewers : List String) (rs : List (Option Review)) :
    rs.any (fun r =>
        contains (reviewers.map toLowerStr) (toLowerStr (getReviewerLogin r)) &&
        isApprovedOrCommented r) = true ↔
      ∃ r ∈ rs,
        (∃ f ∈ reviewers, toLowerStr (getReviewerLogin r) = toLowerStr f) ∧
        (r.bind Review.state = some "APPROVED" ∨
          r.bind Review.state = some "COMMENTED") := by
  simp only [List.any_eq_true, Bool.and_eq_true, contains_iff_mem, List.mem_map,
    isApprovedOrCommented_iff]
  constructor
  · rintro ⟨r, hr, ⟨f, hf, hfe⟩, hst⟩
    exact ⟨r, hr, ⟨f, hf, hfe.symm⟩, hst⟩
  · rintro ⟨r, hr, ⟨f, hf, hfe⟩, hst⟩
    exact ⟨r, hr, ⟨f, hf, hfe.symm⟩, hst⟩

theorem isApproved_eq_beq (r : Option Review) :
    isApproved r = (r.bind Review.state == some "APPROVED") := by
  match r with
  | none => rfl
  | some rr =>
    match h : rr.state with
    | none => simp [isApproved, h]
    | some s =>
      by_cases hs : s = "APPROVED" <;> simp [isApproved, h, hs]

/-- C5: after a successful review fetch, the reviewer-match flag is true iff
some fetched review is by a filter-listed login (compared case-insensitively)
and has state exactly `APPROVED` or `COMMENTED`; a `CHANGES_REQUESTED` review
never counts; and within a pass the flag is never unset once set. -/
theorem c5_reviewer_match :
    (∀ (ε : Type) (isRL : ε → Bool)
        (listReviews : Nat → Nat → Except ε (List (Option Review)))
        (reviewers : List String) (p : PullRequestData) (rs : List (Option Review)),
        (fetchWithRetry isRL (fun a => listReviews (issueNumber p) a)).1 = .ok rs →
        (reviewerMatched
            (enrichReviewRecord isRL listReviews (reviewers.map toLowerStr) p) =
              true ↔
          ∃ r ∈ rs,
            (∃ f ∈ reviewers, toLowerStr (getReviewerLogin r) = toLowerStr f) ∧
            (r.bind Review.state = some "APPROVED" ∨
              r.bind Review.state = some "COMMENTED"))) ∧
    (∀ r : Option Review, r.bind Review.state = some "CHANGES_REQUESTED" →
        isApprovedOrCommented r = false) ∧
    (∀ (L : List String) (A : String) (p : PullRequestData) (r : Option Review),
        p.reviewerStatus = "[X]" → (processReview L A p r).reviewerStatus = "[X]") := by
  refine ⟨?_, ?_, ?_⟩
  · intro ε isRL listReviews reviewers p rs hfetch
    rw [reviewerMatched,
      enrichReviewRecord_success_reviewerStatus isRL listReviews
        (reviewers.map toLowerStr) p rs hfetch, status_beq]
    exact any_match_iff reviewers rs
  · intro r h
    match r with
    | some rr =>
      simp only [Option.some_bind] at h
      simp [isApprovedOrCommented, h]
  · intro L A p r h
    rw [processReview_reviewerStatus, h]
    split <;> rfl

/-- Witness for C5: a filter list `["Bob"]` matched by bob's `APPROVED`
review, with carol's `CHANGES_REQUESTED` review not counting. -/
theorem c5_reviewer_match_witness :
    reviewerMatched
      (enrichReviewRecord noRL
        (okReviewsFetcher [some bobApproved, some carolChanges])
        (["Bob"].map toLowerStr) plainRecord) = true ∧
    isApprovedOrCommented (some carolChanges) = false ∧
    (processReview ["bob"] "alice"
        { plainRecord with reviewerStatus := "[X]" }
        (some carolChanges)).reviewerStatus = "[X]" :=
  ⟨(c5_reviewer_match.1 Unit noRL
      (okReviewsFetcher [some bobApproved, some carolChanges]) ["Bob"]
      plainRecord [some bobApproved, some carolChanges] rfl).mpr
      ⟨some bobApproved, by decide, ⟨"Bob", by decide, by decide⟩,
        Or.inl (by decide)⟩,
    c5_reviewer_match.2.1 (some carolChanges) rfl,
    c5_reviewer_match.2.2 ["bob"] "alice"
      { plainRecord with reviewerStatus := "[X]" } (some carolChanges) rfl⟩

/-- C6: the approval count equals the number of review events with state
exactly `APPROVED` (duplicate approvals by the same reviewer each count), and
it is monotonic: appending one more `APPROVED` review increases it by
exactly 1. -/
theorem c6_approval_count :
    (∀ rs : List (Option Review),
        computeApprovalCount rs =
          (rs.filter (fun r => r.bind Review.state == some "APPROVED")).length) ∧
    (∀ (ε : Type) (isRL : ε → Bool)
        (listReviews : Nat → Nat → Except ε (List (Option Review)))
        (L : List String) (p : PullRequestData) (rs : List (Option Review)),
        (fetchWithRetry isRL (fun a => listReviews (issueNumber p) a)).1 = .ok rs →
        p.approvalCount = 0 →
        (enrichReviewRecord isRL listReviews L p).approvalCount =
          computeApprovalCount rs) ∧
    (∀ (rs : List (Option Review)) (r : Option Review), isApproved r = true →
        computeApprovalCount (rs ++ [r]) = computeApprovalCount rs + 1) ∧
    (∀ r : Option Review, isApproved r = true → computeApprovalCount [r, r] = 2) := by
  refine ⟨?_, ?_, ?_, ?_⟩
  · intro rs
    rw [computeApprovalCount]
    congr 1
    apply List.filter_congr
    intro r _
    exact isApproved_eq_beq r
  · intro ε isRL listReviews L p rs hfetch hcount
    rw [enrichReviewRecord_success_approvalCount isRL listReviews L p rs hfetch,
      hcount, Nat.zero_add]
  · intro rs r h
    simp [computeApprovalCount, List.filter_append, h]
  · intro r h
    simp [computeApprovalCount, h]

/-- Witness for C6 on bob's duplicate `APPROVED` reviews. -/
theorem c6_approval_count_witness :
    computeApprovalCount [some bobApproved, some carolChanges] =
      ([some bobApproved, some carolChanges].filter
        (fun r => r.bind Review.state == some "APPROVED")).length ∧
    (enrichReviewRecord noRL (okReviewsFetcher [some bobApproved])
        [] plainRecord).approvalCount =
      computeApprovalCount [some bobApproved] ∧
    computeApprovalCount ([some carolChanges] ++ [some bobApproved]) =
      computeApprovalCount [some carolChanges] + 1 ∧
    computeApprovalCount [some bobApproved, some bobApproved] = 2 :=
  ⟨c6_approval_count.1 [some bobApproved, some carolChanges],
    c6_approval_count.2.1 Unit noRL (okReviewsFetcher [some bobApproved]) []
      plainRecord [some bobApproved] rfl rfl,
    c6_approval_count.2.2.1 [some carolChanges] (some bobApproved) rfl,
    c6_approval_count.2.2.2 (some bobApproved) rfl⟩

/-! Age-band characterizations. -/

theorem classifyAgeBand_stale_iff (t now : ℚ) :
    classifyAgeBand t now = .stale ↔ 30 < now - t := by
  constructor
  · intro h
    unfold classifyAgeBand at h
    split_ifs at h with h1 h2
    exact h2
  · intro h30
    unfold classifyAgeBand
    rw [if_neg (by linarith), if_pos h30]

theorem classifyAgeBand_fresh_iff (t now : ℚ) :
    classifyAgeBand t now = .fresh ↔ now - t ≤ 1 := by
  constructor
  · intro h
    unfold classifyAgeBand at h
    split_ifs at h with h1 h2
    exact h1
  · intro h1
    unfold classifyAgeBand
    rw [if_pos h1]

theorem classifyAgeBand_normal_iff (t now : ℚ) :
    classifyAgeBand t now = .normal ↔ 1 < now - t ∧ now - t ≤ 30 := by
  constructor
  · intro h
    unfold classifyAgeBand at h
    split_ifs at h with h1 h2
    exact ⟨by linarith, by linarith⟩
  · intro h
    unfold classifyAgeBand
    rw [if_neg (by linarith [h.1]), if_neg (by linarith [h.2])]

/-- C9: the presentation classification of `formatPRNumber` applies the
three-way precedence exactly: age over 30 days (the spec's `Stale` band)
colors red regardless of draft status; otherwise a draft colors gray;
otherwise age at most 1 day (the `Fresh` band) colors green; otherwise
(the `Normal` band, non-draft) the number is printed unstyled. -/
theorem c9_age_precedence :
    ∀ (now : ℚ) (p : PullRequestData) (iss : Issue) (n : Nat) (t : ℚ),
      p.issue = some iss → iss.number = some n → iss.createdAt = some t →
      ((classifyAgeBand t now = .stale →
          formatPRNumber now p = "\x1b[31m" ++ toString n ++ "\x1b[0m") ∧
      (classifyAgeBand t now ≠ .stale → p.isDraft = true →
          formatPRNumber now p = "\x1b[90m" ++ toString n ++ "\x1b[0m") ∧
      (classifyAgeBand t now = .fresh → p.isDraft = false →
          formatPRNumber now p = "\x1b[32m" ++ toString n ++ "\x1b[0m") ∧
      (classifyAgeBand t now = .normal → p.isDraft = false →
          formatPRNumber now p = toString n)) := by
  intro now p iss n t hissue hnum hcr
  refine ⟨?_, ?_, ?_, ?_⟩
  · intro hband
    have h30 : 30 < now - t := (classifyAgeBand_stale_iff t now).mp hband
    simp [formatPRNumber, hissue, hnum, hcr, h30]
  · intro hband hdraft
    have h30 : ¬30 < now - t := fun h =>
      hband ((classifyAgeBand_stale_iff t now).mpr h)
    simp [formatPRNumber, hissue, hnum, hcr, h30, hdraft]
  · intro hband hdraft
    have h1 : now - t ≤ 1 := (classifyAgeBand_fresh_iff t now).mp hband
    have h30 : ¬30 < now - t := by linarith
    simp [formatPRNumber, hissue, hnum, hcr, h30, hdraft, h1]
  · intro hband hdraft
    have h1 : 1 < now - t ∧ now - t ≤ 30 :=
      (classifyAgeBand_normal_iff t now).mp hband
    have h30 : ¬30 < now - t := by linarith [h1.2]
    have hno1 : ¬now - t ≤ 1 := by linarith [h1.1]
    simp [formatPRNumber, hissue, hnum, hcr, h30, hdraft, hno1]

/-- An issue created at time 0 with number 2, for the age-band witnesses. -/
def agedIssue : Issue :=
  { number := some 2, user := none, state := none, createdAt := some 0 }

/-- Non-draft record for `agedIssue`. -/
def agedRecord : PullRequestData := initPRData (some agedIssue)

/-- Draft record for `agedIssue`. -/
def agedDraftRecord : PullRequestData := { agedRecord with isDraft := true }

/-- Witness for C9: at age 40 days a draft still colors red (Stale wins);
at age 5 days a draft colors gray; at age 1 day a non-draft colors green;
at age 5 days a non-draft prints unstyled. -/
theorem c9_age_precedence_witness :
    formatPRNumber 40 agedDraftRecord = "\x1b[31m" ++ toString 2 ++ "\x1b[0m" ∧
    formatPRNumber 5 agedDraftRecord = "\x1b[90m" ++ toString 2 ++ "\x1b[0m" ∧
    formatPRNumber 1 agedRecord = "\x1b[32m" ++ toString 2 ++ "\x1b[0m" ∧
    formatPRNumber 5 agedRecord = toString 2 :=
  ⟨(c9_age_precedence 40 agedDraftRecord agedIssue 2 0 rfl rfl rfl).1
      (by norm_num [classifyAgeBand]),
    (c9_age_precedence 5 agedDraftRecord agedIssue 2 0 rfl rfl rfl).2.1
      (by simp only [ne_eq, classifyAgeBand_stale_iff]; norm_num) rfl,
    (c9_age_precedence 1 agedRecord agedIssue 2 0 rfl rfl rfl).2.2.1
      (by rw [classifyAgeBand_fresh_iff]; norm_num) rfl,
    (c9_age_precedence 5 agedRecord agedIssue 2 0 rfl rfl rfl).2.2.2
      (by rw [classifyAgeBand_normal_iff]; norm_num) rfl⟩

/-! Identifier (issue-number) bookkeeping across the pipeline. -/

theorem fetchIssues_numbers (issues : List (Option Issue)) (o r : String)
    (d : Bool) :
    (fetchIssues issues (newPRCollection o r d)).items.map
        (fun p => p.issue.bind Issue.number) =
      issues.map (fun i => i.bind Issue.number) := by
  simp only [fetchIssues, newPRCollection, List.nil_append, List.map_map]
  rfl

/-- C8 counterexample: `FetchIssues` performs no deduplication, so feeding the
same issue stub twice yields two records with the same issue number. -/
theorem c8_counterexample :
    ¬(((fetchIssues [some aliceIssue, some aliceIssue]
          (newPRCollection "o" "r" false)).items.map
        (fun p => p.issue.bind Issue.number)).Nodup) := by decide

/-- C8 (amended): `FetchIssues` creates exactly one record per input stub, in
order, so the collection's identifier list equals the input stubs'; it is
duplicate-free whenever the search result's numbers are (no dedup is
performed — uniqueness is inherited from the input).  Both enrichment stages
preserve the identifier list exactly, and `FilterDrafts` keeps a sublist of
it, so distinct identifiers are preserved through every later stage. -/
theorem c8_identifier_preservation :
    (∀ (issues : List (Option Issue)) (o r : String) (d : Bool),
        (fetchIssues issues (newPRCollection o r d)).items.map
            (fun p => p.issue.bind Issue.number) =
          issues.map (fun i => i.bind Issue.number)) ∧
    (∀ (issues : List (Option Issue)) (o r : String) (d : Bool),
        (issues.map (fun i => i.bind Issue.number)).Nodup →
        ((fetchIssues issues (newPRCollection o r d)).items.map
            (fun p => p.issue.bind Issue.number)).Nodup) ∧
    (∀ (ε : Type) (isRL : ε → Bool)
        (getPR : Nat → Nat → Except ε (Option PullRequest)) (c : PRCollection),
        (enrichWithPullRequests isRL getPR c).items.map
            (fun p => p.issue.bind Issue.number) =
          c.items.map (fun p => p.issue.bind Issue.number)) ∧
    (∀ (ε : Type) (isRL : ε → Bool)
        (listReviews : Nat → Nat → Except ε (List (Option Review)))
        (reviewers : List String) (c : PRCollection),
        (enrichWithReviews isRL listReviews reviewers c).items.map
            (fun p => p.issue.bind Issue.number) =
          c.items.map (fun p => p.issue.bind Issue.number)) ∧
    (∀ c : PRCollection,
        (c.items.map (fun p => p.issue.bind Issue.number)).Nodup →
        ((filterDrafts c).items.map
            (fun p => p.issue.bind Issue.number)).Nodup) := by
  refine ⟨?_, ?_, ?_, ?_, ?_⟩
  · intro issues o r d
    exact fetchIssues_numbers issues o r d
  · intro issues o r d h
    rw [fetchIssues_numbers issues o r d]
    exact h
  · intro ε isRL getPR c
    simp only [enrichWithPullRequests, List.map_map]
    apply List.map_congr_left
    intro p _
    simp [Function.comp, enrichPRRecord_issue]
  · intro ε isRL listReviews reviewers c
    simp only [enrichWithReviews, List.map_map]
    apply List.map_congr_left
    intro p _
    simp [Function.comp, enrichReviewRecord_issue]
  · intro c h
    by_cases hd : c.draftOption = "hide"
    · simp only [filterDrafts, hd]
      simp only [ne_eq, not_true_eq_false, if_false]
      exact h.sublist ((List.filter_sublist c.items).map _)
    · simp [filterDrafts, hd, h]

/-- A duplicate-free two-record collection for the C8 witness. -/
def twoIssueCollection : PRCollection :=
  fetchIssues [some aliceIssue, some agedIssue] (newPRCollection "o" "r" false)

/-- Witness for C8 on a duplicate-free search result. -/
theorem c8_identifier_preservation_witness :
    ((fetchIssues [some aliceIssue, some agedIssue]
        (newPRCollection "o" "r" false)).items.map
      (fun p => p.issue.bind Issue.number)).Nodup ∧
    ((filterDrafts twoIssueCollection).items.map
      (fun p => p.issue.bind Issue.number)).Nodup :=
  ⟨c8_identifier_preservation.2.1 [some aliceIssue, some agedIssue] "o" "r" false
      (by decide),
    c8_identifier_preservation.2.2.2.2 twoIssueCollection (by decide)⟩

/-! Unique-reviewer set: the code's per-review rule from an empty set. -/

theorem enrich_uniqueReviewers_from_empty {ε : Type} (isRL : ε → Bool)
    (listReviews : Nat → Nat → Except ε (List (Option Review)))
    (L : List String) (p : PullRequestData) (rs : List (Option Review))
    (hfetch : (fetchWithRetry isRL (fun a => listReviews (issueNumber p) a)).1 =
      .ok rs)
    (hempty : p.uniqueReviewers = ∅) :
    (enrichReviewRecord isRL listReviews L p).uniqueReviewers =
      computeUniqueReviewers rs (getPRAuthor p) := by
  ext x
  rw [enrichReviewRecord_success_uniqueReviewers_mem isRL listReviews L p rs x
    hfetch, mem_computeUniqueReviewers, hempty]
  simp

theorem enrich_reviewerMatched {ε : Type} (isRL : ε → Bool)
    (listReviews : Nat → Nat → Except ε (List (Option Review)))
    (reviewers : List String) (p : PullRequestData) (rs : List (Option Review))
    (hfetch : (fetchWithRetry isRL (fun a => listReviews (issueNumber p) a)).1 =
      .ok rs) :
    reviewerMatched
        (enrichReviewRecord isRL listReviews (reviewers.map toLowerStr) p) =
      computeReviewerMatch rs reviewers := by
  rw [reviewerMatched, enrichReviewRecord_success_reviewerStatus isRL listReviews
    (reviewers.map toLowerStr) p rs hfetch, status_beq]
  rfl

/-- C7 counterexample: a review whose login is present but empty is claimed
to land in the unique-reviewer set (its lower-cased login `""` differs from
the author's), yet the code's guard `reviewer != ""` drops it. -/
theorem c7_counterexample :
    (enrichReviewRecord noRL (okReviewsFetcher [some emptyLoginApproved]) []
        (initPRData (some aliceIssue))).uniqueReviewers = ∅ ∧
    claimedUniqueReviewers [some emptyLoginApproved] "alice" = {""} ∧
    isApprovedOrCommented (some emptyLoginApproved) = true := by
  refine ⟨by decide, by decide, by decide⟩

/-- C7 (amended): after a successful review fetch starting from an empty
unique-reviewer set, the set contains exactly the lower-cased logins of
approved-or-commented reviews that are nonempty after normalization and
differ from the author's lower-cased login; in particular the author's own
(lower-cased) login is never included, however often the author reviews. -/
theorem c7_unique_reviewers :
    (∀ (ε : Type) (isRL : ε → Bool)
        (listReviews : Nat → Nat → Except ε (List (Option Review)))
        (L : List String) (p : PullRequestData) (rs : List (Option Review))
        (x : String),
        (fetchWithRetry isRL (fun a => listReviews (issueNumber p) a)).1 = .ok rs →
        p.uniqueReviewers = ∅ →
        (x ∈ (enrichReviewRecord isRL listReviews L p).uniqueReviewers ↔
          ∃ r ∈ rs, isApprovedOrCommented r = true ∧
            x = toLowerStr (getReviewerLogin r) ∧ ¬x = "" ∧
            ¬x = toLowerStr (getPRAuthor p))) ∧
    (∀ (ε : Type) (isRL : ε → Bool)
        (listReviews : Nat → Nat → Except ε (List (Option Review)))
        (L : List String) (p : PullRequestData) (rs : List (Option Review)),
        (fetchWithRetry isRL (fun a => listReviews (issueNumber p) a)).1 = .ok rs →
        p.uniqueReviewers = ∅ →
        (enrichReviewRecord isRL listReviews L p).uniqueReviewers =
          computeUniqueReviewers rs (getPRAuthor p)) ∧
    (∀ (ε : Type) (isRL : ε → Bool)
        (listReviews : Nat → Nat → Except ε (List (Option Review)))
        (L : List String) (p : PullRequestData),
        p.uniqueReviewers = ∅ →
        toLowerStr (getPRAuthor p) ∉
          (enrichReviewRecord isRL listReviews L p).uniqueReviewers) := by
  refine ⟨?_, ?_, ?_⟩
  · intro ε isRL listReviews L p rs x hfetch hempty
    rw [enrichReviewRecord_success_uniqueReviewers_mem isRL listReviews L p rs x
      hfetch, hempty]
    simp only [Finset.not_mem_empty, false_or]
    constructor
    · rintro ⟨r, hr, h1, h2, h3, hx⟩
      subst hx
      exact ⟨r, hr, h3, rfl, h1, h2⟩
    · rintro ⟨r, hr, h3, hx, h1, h2⟩
      subst hx
      exact ⟨r, hr, h1, h2, h3, rfl⟩
  · intro ε isRL listReviews L p rs hfetch hempty
    exact enrich_uniqueReviewers_from_empty isRL listReviews L p rs hfetch hempty
  · intro ε isRL listReviews L p hempty
    cases hfetch : (fetchWithRetry isRL (fun a => listReviews (issueNumber p) a)).1 with
    | error e =>
      rw [enrichReviewRecord_failure isRL listReviews L p e hfetch]
      simp [hempty]
    | ok rs =>
      rw [enrich_uniqueReviewers_from_empty isRL listReviews L p rs hfetch hempty,
        mem_computeUniqueReviewers]
      rintro ⟨r, hr, h1, h2, h3, hx⟩
      exact h2 hx.symm

/-- Witness for C7: bob's approval lands in the set exactly once, the set
matches the pure recomputation, and alice (the author) is excluded. -/
theorem c7_unique_reviewers_witness :
    ("bob" ∈ (enrichReviewRecord noRL (okReviewsFetcher [some bobApproved]) []
        plainRecord).uniqueReviewers) ∧
    (enrichReviewRecord noRL (okReviewsFetcher [some bobApproved]) []
        plainRecord).uniqueReviewers =
      computeUniqueReviewers [some bobApproved] (getPRAuthor plainRecord) ∧
    toLowerStr (getPRAuthor plainRecord) ∉
      (enrichReviewRecord noRL (okReviewsFetcher [some bobApproved]) []
        plainRecord).uniqueReviewers :=
  ⟨(c7_unique_reviewers.1 Unit noRL (okReviewsFetcher [some bobApproved]) []
      plainRecord [some bobApproved] "bob" rfl rfl).mpr
      ⟨some bobApproved, by decide, by decide, by decide, by decide, by decide⟩,
    c7_unique_reviewers.2.1 Unit noRL (okReviewsFetcher [some bobApproved]) []
      plainRecord [some bobApproved] rfl rfl,
    c7_unique_reviewers.2.2 Unit noRL (okReviewsFetcher [some bobApproved]) []
      plainRecord rfl⟩

/-! Re-enrichment bookkeeping. -/

theorem issueNumber_enrichReview {ε : Type} (isRL : ε → Bool)
    (listReviews : Nat → Nat → Except ε (List (Option Review)))
    (L : List String) (p : PullRequestData) :
    issueNumber (enrichReviewRecord isRL listReviews L p) = issueNumber p := by
  simp only [issueNumber, enrichReviewRecord_issue]

theorem getPRAuthor_enrichReview {ε : Type} (isRL : ε → Bool)
    (listReviews : Nat → Nat → Except ε (List (Option Review)))
    (L : List String) (p : PullRequestData) :
    getPRAuthor (enrichReviewRecord isRL listReviews L p) = getPRAuthor p := by
  simp only [getPRAuthor, enrichReviewRecord_issue]

/-- C1 counterexample: running `EnrichWithReviews` a second time over the same
fetched review data doubles `ApprovalCount` (the loop increments the counter
without resetting it), so the derived field no longer equals the pure
recomputation. -/
theorem c1_counterexample :
    ((enrichWithReviews noRL (okReviewsFetcher [some bobApproved]) []
        (enrichWithReviews noRL (okReviewsFetcher [some bobApproved]) []
          (fetchIssues [some aliceIssue] (newPRCollection "o" "r" false)))).items.map
      (fun p => p.approvalCount)) = [2] ∧
    computeApprovalCount [some bobApproved] = 1 := by
  refine ⟨by decide, by decide⟩

/-- C1 (amended): after a single `EnrichWithReviews` pass over a record in its
initial state (zero approval count, empty unique-reviewer set), the derived
fields equal pure recomputation from the fetched reviews, author login and
reviewer filter; re-running the pass over the same fetched data recomputes
`ReviewerMatched` and leaves `UniqueReviewers` unchanged but accumulates
`ApprovalCount` (it becomes twice the recomputation, not equal to it). -/
theorem c1_single_pass_recompute :
    ∀ (ε : Type) (isRL : ε → Bool)
      (listReviews : Nat → Nat → Except ε (List (Option Review)))
      (reviewers : List String) (p : PullRequestData) (rs : List (Option Review)),
      (fetchWithRetry isRL (fun a => listReviews (issueNumber p) a)).1 = .ok rs →
      p.approvalCount = 0 → p.uniqueReviewers = ∅ →
      ((enrichReviewRecord isRL listReviews (reviewers.map toLowerStr) p).reviews =
        rs ∧
      (enrichReviewRecord isRL listReviews
          (reviewers.map toLowerStr) p).approvalCount = computeApprovalCount rs ∧
      (enrichReviewRecord isRL listReviews
          (reviewers.map toLowerStr) p).uniqueReviewers =
        computeUniqueReviewers rs (getPRAuthor p) ∧
      reviewerMatched
          (enrichReviewRecord isRL listReviews (reviewers.map toLowerStr) p) =
        computeReviewerMatch rs reviewers ∧
      (enrichReviewRecord isRL listReviews (reviewers.map toLowerStr)
          (enrichReviewRecord isRL listReviews
            (reviewers.map toLowerStr) p)).approvalCount =
        2 * computeApprovalCount rs ∧
      (enrichReviewRecord isRL listReviews (reviewers.map toLowerStr)
          (enrichReviewRecord isRL listReviews
            (reviewers.map toLowerStr) p)).uniqueReviewers =
        computeUniqueReviewers rs (getPRAuthor p) ∧
      reviewerMatched (enrichReviewRecord isRL listReviews (reviewers.map toLowerStr)
          (enrichReviewRecord isRL listReviews (reviewers.map toLowerStr) p)) =
        computeReviewerMatch rs reviewers) := by
  intro ε isRL listReviews reviewers p rs hfetch h0 hu
  have hnum2 : issueNumber (enrichReviewRecord isRL listReviews
      (reviewers.map toLowerStr) p) = issueNumber p :=
    issueNumber_enrichReview isRL listReviews (reviewers.map toLowerStr) p
  have hfetch2 : (fetchWithRetry isRL (fun a =>
      listReviews (issueNumber (enrichReviewRecord isRL listReviews
        (reviewers.map toLowerStr) p)) a)).1 = .ok rs := by
    rw [hnum2]
    exact hfetch
  have hauthor2 : getPRAuthor (enrichReviewRecord isRL listReviews
      (reviewers.map toLowerStr) p) = getPRAuthor p :=
    getPRAuthor_enrichReview isRL listReviews (reviewers.map toLowerStr) p
  have hcount : (enrichReviewRecord isRL listReviews
      (reviewers.map toLowerStr) p).approvalCount = computeApprovalCount rs := by
    rw [enrichReviewRecord_success_approvalCount isRL listReviews
      (reviewers.map toLowerStr) p rs hfetch, h0, Nat.zero_add]
  have huniq : (enrichReviewRecord isRL listReviews
      (reviewers.map toLowerStr) p).uniqueReviewers =
      computeUniqueReviewers rs (getPRAuthor p) :=
    enrich_uniqueReviewers_from_empty isRL listReviews
      (reviewers.map toLowerStr) p rs hfetch hu
  refine ⟨enrichReviewRecord_success_reviews isRL listReviews
      (reviewers.map toLowerStr) p rs hfetch, hcount, huniq,
    enrich_reviewerMatched isRL listReviews reviewers p rs hfetch, ?_, ?_, ?_⟩
  · rw [enrichReviewRecord_success_approvalCount isRL listReviews
      (reviewers.map toLowerStr) _ rs hfetch2, hcount]
    ring
  · ext x
    rw [enrichReviewRecord_success_uniqueReviewers_mem isRL listReviews
      (reviewers.map toLowerStr) _ rs x hfetch2, huniq, hauthor2,
      mem_computeUniqueReviewers]
    tauto
  · rw [enrich_reviewerMatched isRL listReviews reviewers _ rs hfetch2]

/-- Witness for C1: one record, one `APPROVED` review by bob, empty filter. -/
theorem c1_single_pass_recompute_witness :
    (enrichReviewRecord noRL (okReviewsFetcher [some bobApproved])
        ([].map toLowerStr) plainRecord).approvalCount =
      computeApprovalCount [some bobApproved] ∧
    (enrichReviewRecord noRL (okReviewsFetcher [some bobApproved])
        ([].map toLowerStr) plainRecord).uniqueReviewers =
      computeUniqueReviewers [some bobApproved] (getPRAuthor plainRecord) ∧
    (enrichReviewRecord noRL (okReviewsFetcher [some bobApproved])
        ([].map toLowerStr)
        (enrichReviewRecord noRL (okReviewsFetcher [some bobApproved])
          ([].map toLowerStr) plainRecord)).approvalCount =
      2 * computeApprovalCount [some bobApproved] :=
  ⟨(c1_single_pass_recompute Unit noRL (okReviewsFetcher [some bobApproved]) []
      plainRecord [some bobApproved] rfl rfl rfl).2.1,
    (c1_single_pass_recompute Unit noRL (okReviewsFetcher [some bobApproved]) []
      plainRecord [some bobApproved] rfl rfl rfl).2.2.1,
    (c1_single_pass_recompute Unit noRL (okReviewsFetcher [some bobApproved]) []
      plainRecord [some bobApproved] rfl rfl rfl).2.2.2.2.1⟩
